import Mathlib

/-!
# Biomappings curation core: formal model

A shallow embedding of the mapping review/curation state machine and its
backing record store (the "core" of the biomappings repository), together
with theorems settling the frozen claims about it.

The repository's Python core modules (`biomappings.resources`,
`biomappings.wsgi`, `biomappings.testing`) are not among the available
source files; only their callers, templates and documentation are.  Where a
definition embeds such missing code it is modelled from the specification,
and its doc comment says so.  The Jinja template
`src/biomappings/templates/home.html` is available and is embedded
directly where relevant (decision link values, line rendering).
-/

namespace Biomappings

/-- Modelled from the spec: the closed set of relation codes of the record
model (§3): exact-match, broader-than, narrower-than, close-match, plus the
sentinel not-related used for rejected candidates. -/
inductive Pred where
  | exactMatch
  | broaderThan
  | narrowerThan
  | closeMatch
  | notRelated
deriving DecidableEq, Repr

/-- Modelled from the spec: the enumerated provenance-method code
(`mapping_justification`, §3): manual assertion vs. lexical/automated
matching vs. other reasoning methods. -/
inductive Justification where
  | manualAssertion
  | lexicalMatching
  | otherMethod
deriving DecidableEq, Repr

/-- Modelled from the spec: the enumerated curation status (`type`, §3):
"predicted" (machine-generated, unreviewed) or "manually_reviewed". -/
inductive RecordType where
  | predicted
  | manuallyReviewed
deriving DecidableEq, Repr

/-- Modelled from the spec: an entity reference (§3) — a pointer to a
concept in an external vocabulary: `(prefix, identifier, name)`.  The
field `pfx` embeds the spec's `prefix`; `nm` embeds `name`, used only for
display, never for identity comparisons. -/
structure EntityRef where
  pfx : String
  ident : String
  nm : String
deriving DecidableEq, Repr

/-- Modelled from the spec: a mapping record (§3), the core entity. -/
structure Record where
  subj : EntityRef
  predicate : Pred
  obj : EntityRef
  justification : Justification
  rtype : RecordType
  confidence : Option ℚ
  source : String
deriving DecidableEq, Repr

/-- The identity key of a record (§3): `(subject.prefix,
subject.identifier, predicate, object.prefix, object.identifier)`.
Independent of confidence, source, justification and names. -/
abbrev Key := String × String × Pred × String × String

/-- Modelled from the spec: `identity_key(record) -> tuple` (§4.1). -/
def identityKey (r : Record) : Key :=
  (r.subj.pfx, r.subj.ident, r.predicate, r.obj.pfx, r.obj.ident)

/-- Modelled from the spec: the predicate-inverse lookup table (§4.1, §9):
broader-than ↔ narrower-than; exact-match, close-match and not-related are
self-inverse. -/
def invPred : Pred → Pred
  | .exactMatch => .exactMatch
  | .broaderThan => .narrowerThan
  | .narrowerThan => .broaderThan
  | .closeMatch => .closeMatch
  | .notRelated => .notRelated

/-- Modelled from the spec: `inverse(record) -> Record` (§4.1): swaps
subject and object and maps the predicate to its logical inverse. -/
def inverseRecord (r : Record) : Record :=
  { r with subj := r.obj, obj := r.subj, predicate := invPred r.predicate }

/-! ## Serialization (§4.1, §6)

One store row is one list of fields (the tab-separated line already split
into cells).  Column order follows §6 — source prefix, source identifier,
source name, predicate, target prefix, target identifier, target name,
type, confidence, source — except that §6 omits the `mapping_justification`
field that §3 requires on every record; we serialize it right after `type`
(a minimal completion of the spec, needed so that serialization is not
lossy).  Confidence is a fixed-precision decimal string with two decimal
places (§6), empty for manually-reviewed records. -/

/-- A row of a store file: the list of its cells. -/
abbrev Row := List String

/-- Modelled from the spec: the serialization codes of the closed predicate
set. -/
def predCode : Pred → String
  | .exactMatch => "exact-match"
  | .broaderThan => "broader-than"
  | .narrowerThan => "narrower-than"
  | .closeMatch => "close-match"
  | .notRelated => "not-related"

/-- Modelled from the spec: decoding of a predicate code. -/
def codeToPred (s : String) : Option Pred :=
  if s = "exact-match" then some Pred.exactMatch
  else if s = "broader-than" then some Pred.broaderThan
  else if s = "narrower-than" then some Pred.narrowerThan
  else if s = "close-match" then some Pred.closeMatch
  else if s = "not-related" then some Pred.notRelated
  else none

/-- Modelled from the spec: the serialization codes of the curation-status
enumeration. -/
def typeCode : RecordType → String
  | .predicted => "predicted"
  | .manuallyReviewed => "manually_reviewed"

/-- Modelled from the spec: decoding of a curation-status code. -/
def codeToType (s : String) : Option RecordType :=
  if s = "predicted" then some RecordType.predicted
  else if s = "manually_reviewed" then some RecordType.manuallyReviewed
  else none

/-- Modelled from the spec: the serialization codes of the
provenance-method enumeration. -/
def justCode : Justification → String
  | .manualAssertion => "manual-assertion"
  | .lexicalMatching => "lexical-matching"
  | .otherMethod => "other-method"

/-- Modelled from the spec: decoding of a provenance-method code. -/
def codeToJust (s : String) : Option Justification :=
  if s = "manual-assertion" then some Justification.manualAssertion
  else if s = "lexical-matching" then some Justification.lexicalMatching
  else if s = "other-method" then some Justification.otherMethod
  else none

/-- Lowercasing of a string, character by character (the prefix
normalization of §4.1). -/
def lowerStr (s : String) : String :=
  String.mk (s.data.map Char.toLower)

/-- The number of hundredths in a nonnegative rational, rounded down
(⌊100·c⌋ computed on the reduced numerator and denominator): the
two-decimal-place truncation used by the fixed-precision confidence
formatting. -/
def hundredths (c : ℚ) : ℕ :=
  c.num.toNat * 100 / c.den

/-- Modelled from the spec: fixed-precision (two decimal places)
formatting of a confidence value (§6). -/
def formatConf (c : ℚ) : String :=
  let n : ℕ := hundredths c
  if 100 ≤ n then "1.00"
  else String.mk ['0', '.', Nat.digitChar (n / 10), Nat.digitChar (n % 10)]

/-- The numeric value of a digit character. -/
def digitVal (c : Char) : ℕ := c.toNat - 48

/-- Modelled from the spec: parsing of a fixed-precision confidence
cell. -/
def parseConf (s : String) : Option ℚ :=
  match s.data with
  | ['1', '.', '0', '0'] => some (mkRat 1 1)
  | ['0', '.', a, b] =>
      if a.isDigit && b.isDigit then
        some (mkRat (10 * digitVal a + digitVal b : ℕ) 100)
      else none
  | _ => none

/-- The confidence cell of a row: empty for manually-reviewed records
(§6), the fixed-precision decimal for predictions. -/
def confCell : Option ℚ → String
  | none => ""
  | some c => formatConf c

/-- Modelled from the spec: `to_row(record) -> fields` (§4.1, §6). -/
def toRow (r : Record) : Row :=
  [r.subj.pfx, r.subj.ident, r.subj.nm, predCode r.predicate,
   r.obj.pfx, r.obj.ident, r.obj.nm, typeCode r.rtype,
   justCode r.justification, confCell r.confidence, r.source]

/-- Modelled from the spec: the MalformedRecordError cases of §4.1/§7 —
wrong column count, unknown predicate/type/justification code, or a
confidence cell inconsistent with the record's type. -/
inductive ParseErr where
  | wrongColumnCount
  | unknownPredicate
  | unknownType
  | unknownJustification
  | badConfidence
deriving DecidableEq, Repr

/-- Modelled from the spec: `parse_row(fields) -> Record | fails with
MalformedRecordError` (§4.1), with prefix lowercasing as normalization.
Identifier-pattern validation against the external registry is a
non-fatal warning (§4.1/§7) and so does not appear in the result. -/
def parseRow (fields : Row) : Except ParseErr Record :=
  match fields with
  | [sp, si, sn, pc, tp, ti, tn, tc, jc, cc, src] =>
    match codeToPred pc with
    | none => .error ParseErr.unknownPredicate
    | some p =>
      match codeToType tc with
      | none => .error ParseErr.unknownType
      | some t =>
        match codeToJust jc with
        | none => .error ParseErr.unknownJustification
        | some j =>
          match t with
          | .predicted =>
            match parseConf cc with
            | none => .error ParseErr.badConfidence
            | some c =>
              .ok ⟨⟨lowerStr sp, si, sn⟩, p, ⟨lowerStr tp, ti, tn⟩, j,
                   RecordType.predicted, some c, src⟩
          | .manuallyReviewed =>
            if cc = "" then
              .ok ⟨⟨lowerStr sp, si, sn⟩, p, ⟨lowerStr tp, ti, tn⟩, j,
                   RecordType.manuallyReviewed, none, src⟩
            else .error ParseErr.badConfidence
  | _ => .error ParseErr.wrongColumnCount

/-- Validity of a record (§3, §4.1): prefixes are in canonical
(lowercased) form, and the confidence field is present with a probability
in [0,1] exactly when the record is a prediction. -/
def validRecord (r : Record) : Bool :=
  (lowerStr r.subj.pfx == r.subj.pfx) && (lowerStr r.obj.pfx == r.obj.pfx) &&
  match r.rtype, r.confidence with
  | .predicted, some c => decide (0 ≤ c.num) && decide (c.num ≤ (c.den : ℤ))
  | .predicted, none => false
  | .manuallyReviewed, some _ => false
  | .manuallyReviewed, none => true

/-- A confidence field is exactly representable at the store's fixed
two-decimal precision. -/
def twoDecimalConf : Option ℚ → Prop
  | none => True
  | some c => ∃ n : ℕ, n ≤ 100 ∧ c = (n : ℚ) / 100

/-! ## Stores, loading, and the curation state machine (§3, §4.2, §4.4) -/

/-- Modelled from the spec: `load` (§4.2/§7): parse every row of a store
file in order; the whole load fails on the first malformed row, reporting
its zero-based line index among the data rows, and returns no records at
all; otherwise all records are returned in file order. -/
def loadRows : List Row → Except (ℕ × ParseErr) (List Record)
  | [] => .ok []
  | row :: rest =>
    match parseRow row with
    | .error e => .error (0, e)
    | .ok r =>
      match loadRows rest with
      | .error (i, e) => .error (i + 1, e)
      | .ok rs => .ok (r :: rs)

/-- Modelled from the spec: the in-memory contents of the four parallel
stores (§3): confirmed-true (`positive`), confirmed-false (`negative`),
unsure, and predicted. -/
structure State where
  positive : List Record
  negative : List Record
  unsure : List Record
  predicted : List Record
deriving DecidableEq, Repr

/-- All records of the four stores, predicted first. -/
def State.allRecords (s : State) : List Record :=
  s.predicted ++ s.positive ++ s.negative ++ s.unsure

/-- The identity keys of all records across the four stores. -/
def State.allKeys (s : State) : List Key :=
  s.allRecords.map identityKey

/-- The identity-uniqueness invariant of §3/§8: no identity key appears in
more than one store, and no key appears twice within one store —
equivalently, the combined key list has no duplicates. -/
def Invariant (s : State) : Prop :=
  s.allKeys.Nodup

/-- Modelled from the spec: the five curation decisions of §4.4. -/
inductive Decision where
  | confirmCorrect
  | confirmIncorrect
  | markBroader
  | markNarrower
  | markUnsure
deriving DecidableEq, Repr

/-- The three manually-reviewed stores a decision can target. -/
inductive StoreKind where
  | positive
  | negative
  | unsure
deriving DecidableEq, Repr

/-- Modelled from the spec: the target store of each decision (§4.4
transition table). -/
def decisionTarget : Decision → StoreKind
  | .confirmCorrect => .positive
  | .confirmIncorrect => .negative
  | .markBroader => .positive
  | .markNarrower => .positive
  | .markUnsure => .unsure

/-- Modelled from the spec: the predicate rewrite of each decision (§4.4
transition table): unchanged for confirm-correct and mark-unsure, set to
not-related for confirm-incorrect, rewritten to broader-than /
narrower-than for mark-broader / mark-narrower. -/
def decisionPredicate : Decision → Pred → Pred
  | .confirmCorrect, p => p
  | .confirmIncorrect, _ => .notRelated
  | .markBroader, _ => .broaderThan
  | .markNarrower, _ => .narrowerThan
  | .markUnsure, p => p

/-- Modelled from the spec: the record transform of a decision (§4.4):
predicate rewritten per the transition table, `type` set to
manually_reviewed, `confidence` dropped, `source` overwritten with the
curator identity. -/
def transform (d : Decision) (curator : String) (r : Record) : Record :=
  { r with predicate := decisionPredicate d r.predicate,
           rtype := RecordType.manuallyReviewed,
           confidence := none,
           source := curator }

/-- Append one record at the end of the given store. -/
def addToStore (t : StoreKind) (r : Record) (s : State) : State :=
  match t with
  | .positive => { s with positive := s.positive ++ [r] }
  | .negative => { s with negative := s.negative ++ [r] }
  | .unsure => { s with unsure := s.unsure ++ [r] }

/-- Modelled from the spec: the errors of the mutation entry points
(§7). -/
inductive CurationErr where
  | staleRecord
  | duplicateMapping
deriving DecidableEq, Repr

/-- A record is addressed by a decision when its identity key matches and
it currently has `type = predicted` (§4.4 preconditions). -/
def matchesKey (k : Key) (r : Record) : Bool :=
  decide (identityKey r = k) && decide (r.rtype = RecordType.predicted)

/-- Remove the first element satisfying `p` from a list, returning it and
the remaining list (order of the others untouched), or `none`. -/
def extractFirst (p : Record → Bool) : List Record → Option (Record × List Record)
  | [] => none
  | r :: rs =>
    if p r then some (r, rs)
    else
      match extractFirst p rs with
      | none => none
      | some (x, ys) => some (x, r :: ys)

/-- Modelled from the spec: `apply_decision(identity_key, decision,
curator_identity)` (§4.4): re-reads the Predicted store, fails with
StaleRecordError if no record with the given identity key and `type =
predicted` is present, and otherwise removes that record from Predicted
and appends the transformed record to the decision's target store. -/
def applyDecision (k : Key) (d : Decision) (curator : String) (s : State) :
    Except CurationErr State :=
  match extractFirst (matchesKey k) s.predicted with
  | none => .error CurationErr.staleRecord
  | some (r, rest) =>
    .ok (addToStore (decisionTarget d) (transform d curator r)
          { s with predicted := rest })

/-- A key is present somewhere among the four stores. -/
def keyPresent (k : Key) (s : State) : Bool :=
  s.allRecords.any (fun r => decide (identityKey r = k))

/-- Modelled from the spec: the record built by `add_novel_mapping` (§4.4):
a manually-asserted, manually-reviewed mapping with no confidence and the
curator identity as source, appended to confirmed-true. -/
def novelRecord (subj : EntityRef) (p : Pred) (obj : EntityRef)
    (curator : String) : Record :=
  ⟨subj, p, obj, Justification.manualAssertion, RecordType.manuallyReviewed,
   none, curator⟩

/-- Modelled from the spec: `add_novel_mapping(subject, predicate, object,
curator_identity)` (§4.4): appends directly to confirmed-true after
checking that the identity key and the identity key of its inverse are not
already present in any store; fails with DuplicateMappingError if so. -/
def addNovelMapping (subj : EntityRef) (p : Pred) (obj : EntityRef)
    (curator : String) (s : State) : Except CurationErr State :=
  let r := novelRecord subj p obj curator
  if keyPresent (identityKey r) s || keyPresent (identityKey (inverseRecord r)) s then
    .error CurationErr.duplicateMapping
  else
    .ok (addToStore StoreKind.positive r s)

/-- A curation operation: one decision, or one novel-mapping addition. -/
inductive Op where
  | curate (k : Key) (d : Decision) (curator : String)
  | novel (subj : EntityRef) (p : Pred) (obj : EntityRef) (curator : String)
deriving DecidableEq, Repr

/-- One step of the curation engine: a failed operation changes no
store. -/
def step (s : State) (op : Op) : State :=
  match op with
  | .curate k d c =>
    match applyDecision k d c s with
    | .ok s' => s'
    | .error _ => s
  | .novel subj p obj c =>
    match addNovelMapping subj p obj c s with
    | .ok s' => s'
    | .error _ => s

/-- Run a sequence of curation operations. -/
def run (s : State) (ops : List Op) : State :=
  ops.foldl step s

/-- A decision step does not recreate an identity key that is already in
use: the transformed record's key is absent from every store once the
reviewed prediction has been removed.  (Novel additions check duplication
themselves, and failed operations change nothing, so they are always
fine.) -/
def freshOk (s : State) (op : Op) : Bool :=
  match op with
  | .curate k d c =>
    match extractFirst (matchesKey k) s.predicted with
    | none => true
    | some (r, rest) =>
      !(keyPresent (identityKey (transform d c r)) { s with predicted := rest })
  | .novel _ _ _ _ => true

/-- Every step of an operation sequence satisfies `freshOk` at the state
it is applied in. -/
def goodRun (s : State) : List Op → Bool
  | [] => true
  | op :: ops => freshOk s op && goodRun (step s op) ops

/-- Decidable equality of `Except` results, so that concrete outcomes can
be checked by evaluation. -/
instance {ε α : Type} [DecidableEq ε] [DecidableEq α] : DecidableEq (Except ε α) :=
  fun x y =>
    match x, y with
    | .ok a, .ok b =>
      if h : a = b then .isTrue (by rw [h])
      else .isFalse (fun hc => h (Except.ok.inj hc))
    | .error a, .error b =>
      if h : a = b then .isTrue (by rw [h])
      else .isFalse (fun hc => h (Except.error.inj hc))
    | .ok _, .error _ => .isFalse (fun hc => Except.noConfusion hc)
    | .error _, .ok _ => .isFalse (fun hc => Except.noConfusion hc)

/-! ## Persistence and the crash model (§4.2, §5, §7) -/

/-- The serialized form of a whole store: its records' rows in order. -/
def serializeStore (rs : List Record) : List Row :=
  rs.map toRow

/-- Modelled from the spec: the backing file of one store together with
its temporary sibling during `save` (§4.2): `current` is what readers of
the store see; `temp` is the temporary location of an in-progress atomic
write. -/
structure FileState where
  current : List Row
  temp : Option (List Row)
deriving DecidableEq, Repr

/-- Modelled from the spec: the durable states a crash can leave behind
during `Store.save` (§4.2) — before the temporary write, after the
temporary write but before the rename, and after the rename/replace.  The
current file is never written in place. -/
def saveCrashStates (f : FileState) (new : List Row) : List FileState :=
  [f, { f with temp := some new }, ⟨new, none⟩]

/-- Modelled from the spec: the two backing files rewritten by one
`apply_decision` (§4.4 side effects): the Predicted store and the
decision's target store. -/
structure Disk where
  predFile : List Row
  targetFile : List Row
deriving DecidableEq, Repr

/-- Modelled from the spec: the durable states a crash can leave behind
while `apply_decision` persists its two affected stores, each through its
own atomic `Store.save` (§4.4, §5, §7): nothing committed yet, the
Predicted store replaced, or both stores replaced. -/
def commitCrashStates (d : Disk) (newPred newTarget : List Row) : List Disk :=
  [d, { d with predFile := newPred }, ⟨newPred, newTarget⟩]

/-! ## Review view and the template's decision links (§6; home.html) -/

/-- Modelled from the spec: the free-text filter of the prediction review
view (§6): the query occurs in the subject/object name or prefix. -/
def matchesQuery (q : String) (r : Record) : Bool :=
  decide (List.IsInfix q.data r.subj.nm.data) ||
  decide (List.IsInfix q.data r.obj.nm.data) ||
  decide (List.IsInfix q.data r.subj.pfx.data) ||
  decide (List.IsInfix q.data r.obj.pfx.data)

/-- Modelled from the spec: the paginated, filtered, read-only query over
the Predicted store (§6, §4.4, §9): rows are enumerated with their
zero-based position in the stably-ordered Predicted store (so that a
decision can address its row positionally), then filtered by the optional
query, then paged by offset and limit. -/
def queryView (preds : List Record) (q : Option String) (offset limit : ℕ) :
    List (ℕ × Record) :=
  let rows := preds.enum
  let rows :=
    match q with
    | none => rows
    | some qs => rows.filter (fun ir => matchesQuery qs ir.2)
  (rows.drop offset).take limit

/-- Embedded from `src/biomappings/templates/home.html` (lines 110–143):
the request values of the five decision links rendered on every
prediction row, in template order: thumbs-up, broader, narrower,
thumbs-down, unsure. -/
def markLinkValues : List String :=
  ["yup", "broad", "narrow", "nope", "idk"]

/-- A rendered decision link of the review table: the `mark` request's
`value` and `line` arguments. -/
structure MarkLink where
  value : String
  line : ℕ
deriving DecidableEq, Repr

/-- Embedded from `home.html`: one rendered prediction row for the pair
`(line, p)`: the human-visible line number `1 + line` (line 81 of the
template) and the five decision links, each carrying this row's `line`
(lines 110–143). -/
def renderRow (line : ℕ) : ℕ × List MarkLink :=
  (1 + line, markLinkValues.map (fun v => ⟨v, line⟩))

/-- The rendered review page: each `(line, record)` pair of the query
view rendered as one table row (`home.html` line 78). -/
def renderPage (preds : List Record) (q : Option String) (offset limit : ℕ) :
    List (ℕ × List MarkLink) :=
  (queryView preds q offset limit).map (fun ir => renderRow ir.1)

/-- Modelled from the spec (§4.4 transition table) together with the
tooltips of `home.html`: the curation decision denoted by each request
value. -/
def decisionOfValue (v : String) : Option Decision :=
  if v = "yup" then some Decision.confirmCorrect
  else if v = "broad" then some Decision.markBroader
  else if v = "narrow" then some Decision.markNarrower
  else if v = "nope" then some Decision.confirmIncorrect
  else if v = "idk" then some Decision.markUnsure
  else none

/-- Identity-uniqueness is decidable, so concrete states can be checked
by evaluation. -/
instance instDecidableInvariant (s : State) : Decidable (Invariant s) :=
  List.nodupDecidable _

/-- The contents of one manually-reviewed store of a state. -/
def storeOf (t : StoreKind) (s : State) : List Record :=
  match t with
  | .positive => s.positive
  | .negative => s.negative
  | .unsure => s.unsure

/-! ## Concrete sample data (the fixtures of §8's scenarios) -/

/-- The subject entity of the §8 scenarios: `mesh:D001` ("Foo"). -/
def meshRef : EntityRef := ⟨"mesh", "D001", "Foo"⟩

/-- The object entity of the §8 scenarios: `chebi:C001` ("Bar"). -/
def chebiRef : EntityRef := ⟨"chebi", "C001", "Bar"⟩

/-- The predicted row of §8 scenarios A and B: `(mesh:D001, "Foo",
exact-match, chebi:C001, "Bar", predicted, 0.92, script:gen.py)`. -/
def samplePrediction : Record :=
  ⟨meshRef, Pred.exactMatch, chebiRef, Justification.lexicalMatching,
   RecordType.predicted, some (mkRat 92 100), "script:gen.py"⟩

/-- A second prediction between the same entities, already carrying the
broader-than predicate. -/
def sampleBroaderPrediction : Record :=
  ⟨meshRef, Pred.broaderThan, chebiRef, Justification.lexicalMatching,
   RecordType.predicted, some (mkRat 80 100), "script:gen.py"⟩

/-- The starting state of §8 scenarios A and B: the Predicted store
contains exactly the sample row; the other stores are empty. -/
def scenarioState : State := ⟨[], [], [], [samplePrediction]⟩

/-- The starting state of §8 scenario C: confirmed-true already contains
`(chebi:C001, exact-match, mesh:D001)` (inverse order). -/
def scenarioCState : State :=
  ⟨[⟨chebiRef, Pred.exactMatch, meshRef, Justification.manualAssertion,
     RecordType.manuallyReviewed, none, "orcid:prev"⟩], [], [], []⟩

/-- A valid prediction whose confidence (1/3) is not representable at the
store's fixed two-decimal precision. -/
def thirdConfRecord : Record :=
  ⟨meshRef, Pred.exactMatch, chebiRef, Justification.lexicalMatching,
   RecordType.predicted, some (mkRat 1 3), "script:gen.py"⟩

/-- A row with an unrecognized predicate code (§8 scenario E). -/
def badPredicateRow : Row :=
  ["mesh", "D002", "Qux", "friend-of", "chebi", "C002", "Baz",
   "predicted", "lexical-matching", "0.50", "script:gen.py"]

/-- A one-row on-disk Predicted store paired with an empty confirmed-true
store, as rewritten by one confirm-correct decision. -/
def c4Disk : Disk := ⟨[toRow samplePrediction], []⟩

/-- The Predicted store's new contents after the decision: empty. -/
def c4NewPred : List Row := []

/-- The confirmed-true store's new contents after the decision. -/
def c4NewTarget : List Row :=
  [toRow (transform Decision.confirmCorrect "orcid:0000-0000-0000-0001"
    samplePrediction)]

/-- A two-operation curation sequence used to exercise the invariant
preservation theorem: review the sample prediction, then add a novel
mapping between fresh entities. -/
def sampleOps : List Op :=
  [Op.curate (identityKey samplePrediction) Decision.confirmCorrect
    "orcid:0000-0000-0000-0001",
   Op.novel meshRef Pred.closeMatch ⟨"uniprot", "P1", "Baz"⟩
    "orcid:0000-0000-0000-0001"]

/-! ## Supporting lemmas -/

theorem extractFirst_cons_pos {p : Record → Bool} {r : Record}
    {rs : List Record} (h : p r = true) :
    extractFirst p (r :: rs) = some (r, rs) := by
  simp [extractFirst, h]

theorem extractFirst_cons_neg {p : Record → Bool} {r : Record}
    {rs : List Record} (h : p r = false) :
    extractFirst p (r :: rs) =
      match extractFirst p rs with
      | none => none
      | some (x, ys) => some (x, r :: ys) := by
  simp [extractFirst, h]

theorem extractFirst_eq_none {p : Record → Bool} {l : List Record} :
    extractFirst p l = none ↔ ∀ x ∈ l, p x = false := by
  induction l with
  | nil => simp [extractFirst]
  | cons r rs ih =>
    by_cases hr : p r = true
    · rw [extractFirst_cons_pos hr]
      refine iff_of_false (by simp) ?_
      intro hall
      rw [hall r (List.mem_cons_self r rs)] at hr
      exact Bool.noConfusion hr
    · rw [Bool.not_eq_true] at hr
      rw [extractFirst_cons_neg hr]
      cases hx : extractFirst p rs with
      | none =>
        refine iff_of_true rfl ?_
        intro x hxm
        rcases List.mem_cons.mp hxm with hc | hc
        · rw [hc]; exact hr
        · exact ih.mp hx x hc
      | some v =>
        obtain ⟨b, ys⟩ := v
        refine iff_of_false (by simp) ?_
        intro hall
        have : extractFirst p rs = none :=
          ih.mpr (fun x hxm => hall x (List.mem_cons_of_mem r hxm))
        rw [this] at hx
        exact Option.noConfusion hx

theorem extractFirst_eq_some {p : Record → Bool} :
    ∀ {l : List Record} {r : Record} {rest : List Record},
    extractFirst p l = some (r, rest) →
    ∃ l1 l2, l = l1 ++ r :: l2 ∧ rest = l1 ++ l2 ∧
      (∀ x ∈ l1, p x = false) ∧ p r = true := by
  intro l
  induction l with
  | nil => intro r rest h; exact Option.noConfusion h
  | cons a as ih =>
    intro r rest h
    by_cases ha : p a = true
    · rw [extractFirst_cons_pos ha] at h
      obtain ⟨h1, h2⟩ := Prod.mk.inj (Option.some.inj h)
      subst h1
      subst h2
      exact ⟨[], as, rfl, rfl, by simp, ha⟩
    · rw [Bool.not_eq_true] at ha
      rw [extractFirst_cons_neg ha] at h
      cases hx : extractFirst p as with
      | none => rw [hx] at h; exact Option.noConfusion h
      | some v =>
        obtain ⟨b, ys⟩ := v
        rw [hx] at h
        obtain ⟨h1, h2⟩ := Prod.mk.inj (Option.some.inj h)
        subst h1
        subst h2
        obtain ⟨l1, l2, e1, e2, hall, hb⟩ := ih hx
        refine ⟨a :: l1, l2, ?_, ?_, ?_, hb⟩
        · rw [e1]; rfl
        · rw [e2]; rfl
        · intro x hxm
          rcases List.mem_cons.mp hxm with hc | hc
          · rw [hc]; exact ha
          · exact hall x hc

theorem extractFirst_append {p : Record → Bool} {l1 l2 : List Record}
    {r : Record} (h1 : ∀ x ∈ l1, p x = false) (hr : p r = true) :
    extractFirst p (l1 ++ r :: l2) = some (r, l1 ++ l2) := by
  induction l1 with
  | nil => simp [extractFirst, hr]
  | cons a as ih =>
    have ha : p a = false := h1 a (List.mem_cons_self a as)
    have htail := ih (fun x hx => h1 x (List.mem_cons_of_mem a hx))
    rw [List.cons_append, extractFirst_cons_neg ha, htail]
    rfl

theorem keyPresent_eq_false_iff {k : Key} {s : State} :
    keyPresent k s = false ↔ k ∉ s.allKeys := by
  rw [Bool.eq_false_iff]
  constructor
  · intro h hk
    apply h
    rw [keyPresent, List.any_eq_true]
    obtain ⟨r, hr, he⟩ := List.mem_map.mp hk
    exact ⟨r, hr, decide_eq_true he⟩
  · intro h htrue
    rw [keyPresent, List.any_eq_true] at htrue
    obtain ⟨r, hr, hd⟩ := htrue
    exact h (List.mem_map.mpr ⟨r, hr, of_decide_eq_true hd⟩)

theorem nodup_insert_middle {α : Type} [DecidableEq α] {A B : List α} {k : α}
    (h : (A ++ B).Nodup) (hk : k ∉ A ++ B) : (A ++ k :: B).Nodup :=
  List.nodup_middle.mpr (List.nodup_cons.mpr ⟨hk, h⟩)

theorem allKeys_addToStore (t : StoreKind) (r : Record) (s : State) :
    ∃ A B, (addToStore t r s).allKeys = A ++ identityKey r :: B ∧
      A ++ B = s.allKeys := by
  cases t with
  | positive =>
    refine ⟨(s.predicted ++ s.positive).map identityKey,
            (s.negative ++ s.unsure).map identityKey, ?_, ?_⟩ <;>
      simp [addToStore, State.allKeys, State.allRecords]
  | negative =>
    refine ⟨(s.predicted ++ s.positive ++ s.negative).map identityKey,
            s.unsure.map identityKey, ?_, ?_⟩ <;>
      simp [addToStore, State.allKeys, State.allRecords]
  | unsure =>
    refine ⟨(s.predicted ++ s.positive ++ s.negative ++ s.unsure).map identityKey,
            [], ?_, ?_⟩ <;>
      simp [addToStore, State.allKeys, State.allRecords]

theorem invariant_addToStore {t : StoreKind} {r : Record} {s : State}
    (h : Invariant s) (hk : identityKey r ∉ s.allKeys) :
    Invariant (addToStore t r s) := by
  obtain ⟨A, B, he, hab⟩ := allKeys_addToStore t r s
  rw [Invariant, he]
  exact nodup_insert_middle (hab ▸ h) (hab ▸ hk)

theorem invariant_erase {s : State} {l1 l2 : List Record} {r : Record}
    (hp : s.predicted = l1 ++ r :: l2) (h : Invariant s) :
    Invariant { s with predicted := l1 ++ l2 } := by
  have hs : List.Sublist (l1 ++ l2) (l1 ++ r :: l2) :=
    (List.sublist_cons_self r l2).append_left l1
  have hrec : List.Sublist
      (State.allRecords { s with predicted := l1 ++ l2 }) s.allRecords := by
    rw [State.allRecords, State.allRecords, hp]
    exact ((hs.append_right _).append_right _).append_right _
  exact h.sublist (hrec.map identityKey)

theorem step_curate_of_extract_none {s : State} {k : Key} {d : Decision}
    {c : String} (hx : extractFirst (matchesKey k) s.predicted = none) :
    step s (Op.curate k d c) = s := by
  rw [step, applyDecision, hx]

theorem step_curate_of_extract_some {s : State} {k : Key} {d : Decision}
    {c : String} {r : Record} {rest : List Record}
    (hx : extractFirst (matchesKey k) s.predicted = some (r, rest)) :
    step s (Op.curate k d c) =
      addToStore (decisionTarget d) (transform d c r)
        { s with predicted := rest } := by
  rw [step, applyDecision, hx]

theorem invariant_step {s : State} {op : Op} (h : Invariant s)
    (hf : freshOk s op = true) : Invariant (step s op) := by
  cases op with
  | curate k d c =>
    cases hx : extractFirst (matchesKey k) s.predicted with
    | none => rw [step_curate_of_extract_none hx]; exact h
    | some v =>
      obtain ⟨r, rest⟩ := v
      rw [step_curate_of_extract_some hx]
      obtain ⟨l1, l2, e1, e2, -, -⟩ := extractFirst_eq_some hx
      have h0 : Invariant { s with predicted := rest } := by
        rw [e2]; exact invariant_erase e1 h
      rw [freshOk, hx, Bool.not_eq_true'] at hf
      exact invariant_addToStore h0 (keyPresent_eq_false_iff.mp hf)
  | novel subj p obj c =>
    by_cases hdup :
        (keyPresent (identityKey (novelRecord subj p obj c)) s ||
          keyPresent (identityKey (inverseRecord (novelRecord subj p obj c))) s) = true
    · have heq : step s (Op.novel subj p obj c) = s := by
        simp only [step, addNovelMapping, hdup, if_true]
      rw [heq]; exact h
    · rw [Bool.not_eq_true] at hdup
      have heq : step s (Op.novel subj p obj c) =
          addToStore StoreKind.positive (novelRecord subj p obj c) s := by
        simp only [step, addNovelMapping, hdup, Bool.false_eq_true, if_false]
      obtain ⟨h1, -⟩ := Bool.or_eq_false_iff.mp hdup
      rw [heq]
      exact invariant_addToStore h (keyPresent_eq_false_iff.mp h1)

theorem addToStore_predicted (t : StoreKind) (r : Record) (s : State) :
    (addToStore t r s).predicted = s.predicted := by
  cases t <;> rfl

theorem storeOf_addToStore_same (t : StoreKind) (r : Record) (s : State) :
    storeOf t (addToStore t r s) = storeOf t s ++ [r] := by
  cases t <;> rfl

theorem storeOf_addToStore_other {t t' : StoreKind} (h : t' ≠ t)
    (r : Record) (s : State) :
    storeOf t' (addToStore t r s) = storeOf t' s := by
  cases t <;> cases t' <;> first | rfl | exact absurd rfl h

theorem storeOf_set_predicted (t : StoreKind) (s : State) (l : List Record) :
    storeOf t { s with predicted := l } = storeOf t s := by
  cases t <;> rfl

theorem keyPresent_iff {k : Key} {s : State} :
    keyPresent k s = true ↔ k ∈ s.allKeys := by
  cases hb : keyPresent k s with
  | false =>
    simp only [Bool.false_eq_true, false_iff]
    exact keyPresent_eq_false_iff.mp hb
  | true =>
    simp only [true_iff]
    by_contra hk
    have := keyPresent_eq_false_iff.mpr hk
    rw [this] at hb
    exact Bool.noConfusion hb

theorem exceptIsOk_iff {ε α : Type} {e : Except ε α} :
    e.isOk = true ↔ ∃ a, e = Except.ok a := by
  cases e with
  | ok a => simp [Except.isOk, Except.toBool]
  | error b => simp [Except.isOk, Except.toBool]

theorem codeToPred_predCode (p : Pred) : codeToPred (predCode p) = some p := by
  cases p <;> decide

theorem codeToType_typeCode (t : RecordType) : codeToType (typeCode t) = some t := by
  cases t <;> decide

theorem codeToJust_justCode (j : Justification) : codeToJust (justCode j) = some j := by
  cases j <;> decide

theorem confRound_all :
    ((List.range 101).all
      (fun n => decide (parseConf (formatConf (mkRat n 100)) =
        some (mkRat n 100)))) = true := by
  decide

theorem confRound {n : ℕ} (h : n ≤ 100) :
    parseConf (formatConf (mkRat n 100)) = some (mkRat n 100) := by
  have hall := List.all_eq_true.mp confRound_all
  have hn : n ∈ List.range 101 := List.mem_range.mpr (by omega)
  exact of_decide_eq_true (hall n hn)

theorem twoDecimal_mkRat {c : ℚ} (h : twoDecimalConf (some c)) :
    ∃ n : ℕ, n ≤ 100 ∧ c = mkRat n 100 := by
  obtain ⟨n, hn, he⟩ := h
  refine ⟨n, hn, ?_⟩
  rw [he, Rat.mkRat_eq_div]
  norm_num

theorem parseRow_toRow {r : Record} (hv : validRecord r = true)
    (h2 : twoDecimalConf r.confidence) :
    parseRow (toRow r) = Except.ok r := by
  obtain ⟨⟨sp, si, sn⟩, p, ⟨tp, ti, tn⟩, j, t, conf, src⟩ := r
  rw [validRecord] at hv
  simp only [Bool.and_eq_true, beq_iff_eq] at hv
  obtain ⟨⟨hsp, htp⟩, hm⟩ := hv
  simp only [toRow, parseRow, codeToPred_predCode, codeToType_typeCode,
    codeToJust_justCode]
  cases t with
  | predicted =>
    cases conf with
    | none => exact Bool.noConfusion hm
    | some c =>
      obtain ⟨n, hn, hc⟩ := twoDecimal_mkRat h2
      subst hc
      simp only [confCell, confRound hn]
      simp only [hsp, htp]
  | manuallyReviewed =>
    cases conf with
    | some c => exact Bool.noConfusion hm
    | none =>
      simp only [confCell, if_pos rfl, if_true]
      simp only [hsp, htp]

theorem loadRows_ok {rows : List Row}
    (h : ∀ r ∈ rows, (parseRow r).isOk = true) :
    ∃ recs, loadRows rows = Except.ok recs ∧
      recs.map Except.ok = rows.map parseRow := by
  induction rows with
  | nil => exact ⟨[], rfl, rfl⟩
  | cons row rest ih =>
    obtain ⟨rec, hrec⟩ := exceptIsOk_iff.mp (h row (List.mem_cons_self _ _))
    obtain ⟨recs, hl, hmap⟩ := ih (fun r hr => h r (List.mem_cons_of_mem _ hr))
    refine ⟨rec :: recs, ?_, ?_⟩
    · rw [loadRows, hrec, hl]
    · simp only [List.map_cons, hmap, hrec]

theorem loadRows_error {rows : List Row} {i : ℕ} {row : Row} {e : ParseErr}
    (hget : rows.get? i = some row) (herr : parseRow row = Except.error e)
    (hprior : ∀ j r', j < i → rows.get? j = some r' →
      (parseRow r').isOk = true) :
    loadRows rows = Except.error (i, e) := by
  induction rows generalizing i with
  | nil => exact Option.noConfusion hget
  | cons a rest ih =>
    cases i with
    | zero =>
      obtain rfl : a = row := Option.some.inj hget
      rw [loadRows, herr]
    | succ n =>
      have h0 : (parseRow a).isOk = true := hprior 0 a (Nat.succ_pos n) rfl
      obtain ⟨rec, hrec⟩ := exceptIsOk_iff.mp h0
      have htail : loadRows rest = Except.error (n, e) :=
        ih hget (fun j r' hj hg => hprior (j + 1) r' (by omega) hg)
      rw [loadRows, hrec, htail]

theorem loadRows_serialize {recs : List Record}
    (h : ∀ x ∈ recs, validRecord x = true ∧ twoDecimalConf x.confidence) :
    loadRows (serializeStore recs) = Except.ok recs := by
  induction recs with
  | nil => rfl
  | cons r rest ih =>
    have hr := h r (List.mem_cons_self _ _)
    have htail := ih (fun x hx => h x (List.mem_cons_of_mem _ hx))
    rw [serializeStore, List.map_cons]
    rw [loadRows, parseRow_toRow hr.1 hr.2]
    rw [show List.map toRow rest = serializeStore rest from rfl, htail]

theorem queryView_mem {preds : List Record} {q : Option String}
    {off lim i : ℕ} {p : Record}
    (h : (i, p) ∈ queryView preds q off lim) : preds.get? i = some p := by
  simp only [queryView] at h
  cases q with
  | none =>
    have h3 : (i, p) ∈ preds.enum :=
      List.drop_subset _ _ (List.take_subset _ _ h)
    rw [List.get?_eq_getElem?]
    exact List.mk_mem_enum_iff_getElem?.mp h3
  | some qs =>
    have h3 : (i, p) ∈ preds.enum :=
      List.mem_of_mem_filter (List.drop_subset _ _ (List.take_subset _ _ h))
    rw [List.get?_eq_getElem?]
    exact List.mk_mem_enum_iff_getElem?.mp h3

/-! ## The claims -/

/-- Claim C1 (counterexample): identity uniqueness is not preserved by
every curation sequence.  From a Predicted store that satisfies the
invariant and contains both an exact-match and a broader-than prediction
between the same two entities, marking the exact-match prediction as
broader puts a broader-than record into confirmed-true while the same
identity key still sits in Predicted. -/
theorem claim_C1_counterexample :
    Invariant (State.mk [] [] [] [samplePrediction, sampleBroaderPrediction]) ∧
    ¬ Invariant (run
      (State.mk [] [] [] [samplePrediction, sampleBroaderPrediction])
      [Op.curate (identityKey samplePrediction) Decision.markBroader
        "orcid:0000-0000-0000-0001"]) := by
  decide

/-- Claim C1 (amended): starting from any state satisfying identity
uniqueness, every sequence of curation operations in which no decision's
transformed record recreates an identity key that is still present
elsewhere preserves identity uniqueness: each identity key appears in at
most one of the four stores and at most once within any single store. -/
theorem claim_C1_identity_uniqueness (s : State) (ops : List Op)
    (h : Invariant s) (hg : goodRun s ops = true) :
    Invariant (run s ops) := by
  induction ops generalizing s with
  | nil => exact h
  | cons op rest ih =>
    rw [goodRun, Bool.and_eq_true] at hg
    exact ih (step s op) (invariant_step h hg.1) hg.2

/-- Witness for claim C1: the invariant-preservation theorem applied to a
concrete fixture and a concrete two-operation curation sequence. -/
theorem claim_C1_witness :
    Invariant scenarioState ∧ goodRun scenarioState sampleOps = true ∧
    Invariant (run scenarioState sampleOps) :=
  ⟨by decide, by decide,
   claim_C1_identity_uniqueness scenarioState sampleOps (by decide) (by decide)⟩

/-- Claim C2: for every record currently in the Predicted store and every
decision, `apply_decision` removes the record from Predicted and appends
exactly one transformed record to the decision's target store —
confirmed-true for confirm-correct/mark-broader/mark-narrower,
confirmed-false for confirm-incorrect, unsure for mark-unsure — with the
predicate unchanged for confirm-correct and mark-unsure, rewritten to
not-related for confirm-incorrect and to broader-than/narrower-than for
mark-broader/mark-narrower, the type set to manually_reviewed, the
confidence dropped, and the source overwritten with the curator
identity. -/
theorem claim_C2_apply_decision (s : State) (k : Key) (d : Decision)
    (c : String) (l1 l2 : List Record) (r : Record)
    (hp : s.predicted = l1 ++ r :: l2)
    (hl1 : ∀ x ∈ l1, matchesKey k x = false)
    (hr : matchesKey k r = true) :
    applyDecision k d c s =
      Except.ok (addToStore (decisionTarget d)
        { r with predicate := decisionPredicate d r.predicate,
                 rtype := RecordType.manuallyReviewed,
                 confidence := none,
                 source := c }
        { s with predicted := l1 ++ l2 }) := by
  rw [applyDecision, hp, extractFirst_append hl1 hr]
  rfl

/-- Witness for claim C2: §8 scenario A — confirming the sample prediction
empties Predicted and adds the manually-reviewed row, with no confidence
field and the curator as source, to confirmed-true. -/
theorem claim_C2_witness :
    applyDecision (identityKey samplePrediction) Decision.confirmCorrect
      "orcid:0000-0000-0000-0001" scenarioState =
      Except.ok (State.mk
        [⟨⟨"mesh", "D001", "Foo"⟩, Pred.exactMatch, ⟨"chebi", "C001", "Bar"⟩,
          Justification.lexicalMatching, RecordType.manuallyReviewed, none,
          "orcid:0000-0000-0000-0001"⟩] [] [] []) :=
  (claim_C2_apply_decision scenarioState (identityKey samplePrediction)
    Decision.confirmCorrect "orcid:0000-0000-0000-0001" [] [] samplePrediction
    rfl (by simp) (by decide)).trans (by decide)

/-- Claim C3: applying a curation decision twice to an identity key that
occurs exactly once in the Predicted store succeeds the first time and
fails the second time with StaleRecordError; in general `apply_decision`
fails with StaleRecordError and changes no store whenever no record with
the referenced identity key and type = predicted is present in the
Predicted store. -/
theorem claim_C3_stale_decisions (s : State) (k : Key) (d d' : Decision)
    (c c' : String) (l1 l2 : List Record) (r : Record)
    (hp : s.predicted = l1 ++ r :: l2)
    (hl : ∀ x ∈ l1 ++ l2, matchesKey k x = false)
    (hr : matchesKey k r = true) :
    (∃ s', applyDecision k d c s = Except.ok s' ∧
      applyDecision k d' c' s' = Except.error CurationErr.staleRecord) ∧
    (∀ t : State, (∀ x ∈ t.predicted, matchesKey k x = false) →
      applyDecision k d' c' t = Except.error CurationErr.staleRecord ∧
      step t (Op.curate k d' c') = t) := by
  have hgen : ∀ t : State, (∀ x ∈ t.predicted, matchesKey k x = false) →
      applyDecision k d' c' t = Except.error CurationErr.staleRecord ∧
      step t (Op.curate k d' c') = t := by
    intro t ht
    have hx : extractFirst (matchesKey k) t.predicted = none :=
      extractFirst_eq_none.mpr ht
    exact ⟨by rw [applyDecision, hx], step_curate_of_extract_none hx⟩
  refine ⟨?_, hgen⟩
  have hl1 : ∀ x ∈ l1, matchesKey k x = false :=
    fun x hx => hl x (List.mem_append_left _ hx)
  have happ : applyDecision k d c s =
      Except.ok (addToStore (decisionTarget d) (transform d c r)
        { s with predicted := l1 ++ l2 }) := by
    rw [applyDecision, hp, extractFirst_append hl1 hr]
  refine ⟨_, happ, (hgen _ ?_).1⟩
  rw [addToStore_predicted]
  exact fun x hx => hl x hx

/-- Witness for claim C3: confirming the sample prediction once succeeds;
confirming it again fails with StaleRecordError. -/
theorem claim_C3_witness :
    ∃ s', applyDecision (identityKey samplePrediction)
        Decision.confirmCorrect "orcid:0000-0000-0000-0001" scenarioState =
        Except.ok s' ∧
      applyDecision (identityKey samplePrediction) Decision.confirmCorrect
        "orcid:0000-0000-0000-0002" s' =
        Except.error CurationErr.staleRecord :=
  (claim_C3_stale_decisions scenarioState (identityKey samplePrediction)
    Decision.confirmCorrect Decision.confirmCorrect
    "orcid:0000-0000-0000-0001" "orcid:0000-0000-0000-0002"
    [] [] samplePrediction rfl (by simp) (by decide)).1

/-- Claim C5: `add_novel_mapping` appends the new record to confirmed-true
if and only if neither its identity key nor the identity key of its
inverse is already present in any of the four stores; otherwise it fails
with DuplicateMappingError and changes no store. -/
theorem claim_C5_add_novel (s : State) (subj : EntityRef) (p : Pred)
    (obj : EntityRef) (c : String) :
    (identityKey (novelRecord subj p obj c) ∉ s.allKeys ∧
        identityKey (inverseRecord (novelRecord subj p obj c)) ∉ s.allKeys →
      addNovelMapping subj p obj c s =
        Except.ok (addToStore StoreKind.positive (novelRecord subj p obj c) s)) ∧
    (identityKey (novelRecord subj p obj c) ∈ s.allKeys ∨
        identityKey (inverseRecord (novelRecord subj p obj c)) ∈ s.allKeys →
      addNovelMapping subj p obj c s = Except.error CurationErr.duplicateMapping ∧
      step s (Op.novel subj p obj c) = s) := by
  constructor
  · rintro ⟨h1, h2⟩
    have b1 := keyPresent_eq_false_iff.mpr h1
    have b2 := keyPresent_eq_false_iff.mpr h2
    simp only [addNovelMapping, b1, b2, Bool.or_self, Bool.false_eq_true,
      if_false]
  · intro h
    have hb : (keyPresent (identityKey (novelRecord subj p obj c)) s ||
        keyPresent (identityKey (inverseRecord (novelRecord subj p obj c))) s)
        = true := by
      rw [Bool.or_eq_true]
      cases h with
      | inl h => exact Or.inl (keyPresent_iff.mpr h)
      | inr h => exact Or.inr (keyPresent_iff.mpr h)
    exact ⟨by simp only [addNovelMapping, hb, if_true],
           by simp only [step, addNovelMapping, hb, if_true]⟩

/-- Witness for claim C5: §8 scenario C — confirmed-true already holds
`(chebi:C001, exact-match, mesh:D001)`, so adding
`(mesh:D001, exact-match, chebi:C001)` fails with DuplicateMappingError
because exact-match is self-inverse, and no store changes. -/
theorem claim_C5_witness :
    addNovelMapping meshRef Pred.exactMatch chebiRef
      "orcid:0000-0000-0000-0001" scenarioCState =
      Except.error CurationErr.duplicateMapping ∧
    step scenarioCState (Op.novel meshRef Pred.exactMatch chebiRef
      "orcid:0000-0000-0000-0001") = scenarioCState :=
  (claim_C5_add_novel scenarioCState meshRef Pred.exactMatch chebiRef
    "orcid:0000-0000-0000-0001").2 (Or.inr (by decide))

/-- Claim C6: loading a store in which some row fails to parse fails with
an error identifying the offending (first failing) line index and returns
no records at all; loading a store whose rows all parse returns the full
ordered sequence of records in file order. -/
theorem claim_C6_load (rows : List Row) :
    (∀ i row e, rows.get? i = some row → parseRow row = Except.error e →
      (∀ j r', j < i → rows.get? j = some r' → (parseRow r').isOk = true) →
      loadRows rows = Except.error (i, e)) ∧
    ((∀ r ∈ rows, (parseRow r).isOk = true) →
      ∃ recs, loadRows rows = Except.ok recs ∧
        recs.map Except.ok = rows.map parseRow) :=
  ⟨fun _ _ _ hget herr hprior => loadRows_error hget herr hprior,
   fun h => loadRows_ok h⟩

/-- Witness for claim C6: §8 scenario E — a store whose second row carries
an unrecognized predicate code fails to load with an error naming line
index 1, returning no records. -/
theorem claim_C6_witness :
    loadRows [toRow samplePrediction, badPredicateRow] =
      Except.error (1, ParseErr.unknownPredicate) :=
  (claim_C6_load [toRow samplePrediction, badPredicateRow]).1 1
    badPredicateRow ParseErr.unknownPredicate (by decide) (by decide)
    (fun j r' hj hget => by
      have hj0 : j = 0 := by omega
      subst hj0
      obtain rfl : toRow samplePrediction = r' := Option.some.inj hget
      decide)

/-- Claim C7 (counterexample): serialization does not round-trip every
valid record: the fixed-precision confidence formatting truncates the
valid confidence 1/3 to two decimal places, so parsing the serialized row
does not return the original record. -/
theorem claim_C7_counterexample :
    validRecord thirdConfRecord = true ∧
    parseRow (toRow thirdConfRecord) ≠ Except.ok thirdConfRecord := by
  decide

/-- Claim C7 (amended): for every valid record whose confidence is exactly
representable at the store's fixed two-decimal precision, serializing it
to a row and parsing that row back yields the original record. -/
theorem claim_C7_roundtrip (r : Record) (hv : validRecord r = true)
    (h2 : twoDecimalConf r.confidence) :
    parseRow (toRow r) = Except.ok r :=
  parseRow_toRow hv h2

/-- Witness for claim C7: the round trip at the concrete sample prediction
with confidence 0.92. -/
theorem claim_C7_witness :
    parseRow (toRow samplePrediction) = Except.ok samplePrediction :=
  claim_C7_roundtrip samplePrediction (by decide)
    ⟨92, by norm_num, by rw [Rat.mkRat_eq_div]; norm_num⟩

/-- Claim C8: the inverse operation is an involution, and for every record
whose predicate is not self-inverse or whose subject differs from its
object, the identity key of the record differs from the identity key of
its inverse. -/
theorem claim_C8_inverse :
    (∀ r : Record, inverseRecord (inverseRecord r) = r) ∧
    (∀ r : Record,
      invPred r.predicate ≠ r.predicate ∨
        (r.subj.pfx, r.subj.ident) ≠ (r.obj.pfx, r.obj.ident) →
      identityKey r ≠ identityKey (inverseRecord r)) := by
  constructor
  · intro r
    obtain ⟨subj, p, obj, j, t, conf, src⟩ := r
    simp only [inverseRecord]
    cases p <;> rfl
  · intro r h heq
    obtain ⟨⟨a1, a2, a3⟩, p, ⟨b1, b2, b3⟩, j, t, conf, src⟩ := r
    simp only [identityKey, inverseRecord, Prod.mk.injEq] at heq
    obtain ⟨e1, e2, e3, -, -⟩ := heq
    cases h with
    | inl hnp => exact hnp e3.symm
    | inr hne => exact hne (by rw [Prod.mk.injEq]; exact ⟨e1, e2⟩)

/-- Witness for claim C8: the involution and the key inequality at the
concrete broader-than sample prediction. -/
theorem claim_C8_witness :
    inverseRecord (inverseRecord sampleBroaderPrediction) =
      sampleBroaderPrediction ∧
    identityKey sampleBroaderPrediction ≠
      identityKey (inverseRecord sampleBroaderPrediction) :=
  ⟨claim_C8_inverse.1 sampleBroaderPrediction,
   claim_C8_inverse.2 sampleBroaderPrediction (Or.inl (by decide))⟩

/-- Claim C4 (counterexample): mutation is not all-or-none across stores:
while `apply_decision` persists its two affected stores through per-file
atomic saves, the durable state reachable by crashing between the two
renames has the Predicted store already replaced and the target store
still old — neither "all stores updated" nor "none". -/
theorem claim_C4_counterexample :
    Disk.mk c4NewPred c4Disk.targetFile ∈
      commitCrashStates c4Disk c4NewPred c4NewTarget ∧
    Disk.mk c4NewPred c4Disk.targetFile ≠ c4Disk ∧
    Disk.mk c4NewPred c4Disk.targetFile ≠ Disk.mk c4NewPred c4NewTarget := by
  decide

/-- Claim C4 (amended): every crash point of `Store.save` leaves the store
file either at its old or at its new contents — never half-written — and
every crash before the rename/replace step leaves the original contents
fully intact; the surviving contents stay parseable whenever the old file
parsed and the new contents serialize valid records.  In the two-file
commit of `apply_decision`, each individual store file is likewise always
either old or new (though a crash between the two per-file commits can
leave exactly one of the two stores updated). -/
theorem claim_C4_crash_atomicity :
    (∀ (f : FileState) (new : List Row) (g : FileState),
      g ∈ saveCrashStates f new →
      (g.current = f.current ∨ g.current = new)) ∧
    (∀ (f : FileState) (new : List Row) (g : FileState),
      g ∈ saveCrashStates f new → g ≠ ⟨new, none⟩ →
      g.current = f.current) ∧
    (∀ (f : FileState) (newRecs : List Record) (g : FileState)
      (recs : List Record),
      g ∈ saveCrashStates f (serializeStore newRecs) →
      loadRows f.current = Except.ok recs →
      (∀ x ∈ newRecs, validRecord x = true ∧ twoDecimalConf x.confidence) →
      ∃ recs', loadRows g.current = Except.ok recs') ∧
    (∀ (dsk : Disk) (np nt : List Row) (g : Disk),
      g ∈ commitCrashStates dsk np nt →
      (g.predFile = dsk.predFile ∨ g.predFile = np) ∧
      (g.targetFile = dsk.targetFile ∨ g.targetFile = nt)) := by
  refine ⟨?_, ?_, ?_, ?_⟩
  · intro f new g hg
    simp only [saveCrashStates, List.mem_cons, List.mem_singleton,
      List.not_mem_nil, or_false] at hg
    rcases hg with rfl | rfl | rfl
    · exact Or.inl rfl
    · exact Or.inl rfl
    · exact Or.inr rfl
  · intro f new g hg hne
    simp only [saveCrashStates, List.mem_cons, List.mem_singleton,
      List.not_mem_nil, or_false] at hg
    rcases hg with rfl | rfl | rfl
    · rfl
    · rfl
    · exact absurd rfl hne
  · intro f newRecs g recs hg hold hvalid
    simp only [saveCrashStates, List.mem_cons, List.mem_singleton,
      List.not_mem_nil, or_false] at hg
    rcases hg with rfl | rfl | rfl
    · exact ⟨recs, hold⟩
    · exact ⟨recs, hold⟩
    · exact ⟨newRecs, loadRows_serialize hvalid⟩
  · intro dsk np nt g hg
    simp only [commitCrashStates, List.mem_cons, List.mem_singleton,
      List.not_mem_nil, or_false] at hg
    rcases hg with rfl | rfl | rfl
    · exact ⟨Or.inl rfl, Or.inl rfl⟩
    · exact ⟨Or.inr rfl, Or.inl rfl⟩
    · exact ⟨Or.inr rfl, Or.inr rfl⟩

/-- Witness for claim C4: at the concrete one-row store, the crash state
sitting between the temporary write and the rename still loads the
original record. -/
theorem claim_C4_witness :
    ∃ recs', loadRows
      (FileState.mk [toRow samplePrediction]
        (some (serializeStore [transform Decision.confirmCorrect
          "orcid:0000-0000-0000-0001" samplePrediction]))).current =
      Except.ok recs' :=
  claim_C4_crash_atomicity.2.2.1
    ⟨[toRow samplePrediction], none⟩
    [transform Decision.confirmCorrect "orcid:0000-0000-0000-0001"
      samplePrediction]
    ⟨[toRow samplePrediction],
      some (serializeStore [transform Decision.confirmCorrect
        "orcid:0000-0000-0000-0001" samplePrediction])⟩
    [samplePrediction]
    (by simp [saveCrashStates])
    (by decide)
    (fun x hx => by
      rw [List.mem_singleton] at hx
      subst hx
      exact ⟨by decide, trivial⟩)

/-- Claim C9: a decision preserves the relative order and the
byte-identical serialized form of every row it does not touch: the
written-back Predicted store is the old row sequence with only the
reviewed row removed, stores other than the target are unchanged, and the
target store is its old row sequence with the one transformed row
appended. -/
theorem claim_C9_frame (s : State) (k : Key) (d : Decision) (c : String)
    (l1 l2 : List Record) (r : Record) (s' : State)
    (hp : s.predicted = l1 ++ r :: l2)
    (hl1 : ∀ x ∈ l1, matchesKey k x = false)
    (hr : matchesKey k r = true)
    (hok : applyDecision k d c s = Except.ok s') :
    serializeStore s'.predicted = serializeStore l1 ++ serializeStore l2 ∧
    (∀ t : StoreKind, t ≠ decisionTarget d → storeOf t s' = storeOf t s) ∧
    serializeStore (storeOf (decisionTarget d) s') =
      serializeStore (storeOf (decisionTarget d) s) ++
        [toRow (transform d c r)] := by
  have happ : applyDecision k d c s =
      Except.ok (addToStore (decisionTarget d) (transform d c r)
        { s with predicted := l1 ++ l2 }) := by
    rw [applyDecision, hp, extractFirst_append hl1 hr]
  rw [happ] at hok
  obtain rfl : s' = addToStore (decisionTarget d) (transform d c r)
      { s with predicted := l1 ++ l2 } := (Except.ok.inj hok).symm
  refine ⟨?_, ?_, ?_⟩
  · rw [addToStore_predicted]
    simp [serializeStore]
  · intro t ht
    rw [storeOf_addToStore_other ht, storeOf_set_predicted]
  · rw [storeOf_addToStore_same, storeOf_set_predicted, serializeStore,
      List.map_append]
    rfl

/-- Witness for claim C9: the frame property at §8 scenario A — the
untouched stores of the resulting state are unchanged and the target store
gains exactly the serialized transformed row. -/
theorem claim_C9_witness :
    serializeStore (State.mk
      [transform Decision.confirmCorrect "orcid:0000-0000-0000-0001"
        samplePrediction] [] [] []).predicted =
      serializeStore [] ++ serializeStore [] ∧
    (∀ t : StoreKind, t ≠ decisionTarget Decision.confirmCorrect →
      storeOf t (State.mk
        [transform Decision.confirmCorrect "orcid:0000-0000-0000-0001"
          samplePrediction] [] [] []) = storeOf t scenarioState) ∧
    serializeStore (storeOf (decisionTarget Decision.confirmCorrect)
      (State.mk [transform Decision.confirmCorrect "orcid:0000-0000-0000-0001"
        samplePrediction] [] [] [])) =
      serializeStore (storeOf (decisionTarget Decision.confirmCorrect)
        scenarioState) ++
        [toRow (transform Decision.confirmCorrect "orcid:0000-0000-0000-0001"
          samplePrediction)] :=
  claim_C9_frame scenarioState (identityKey samplePrediction)
    Decision.confirmCorrect "orcid:0000-0000-0000-0001" [] []
    samplePrediction
    (State.mk [transform Decision.confirmCorrect "orcid:0000-0000-0000-0001"
      samplePrediction] [] [] [])
    rfl (by simp) (by decide) (by decide)

/-- Claim C10 (counterexample): the `line` carried by a row's decision
links is not a zero-based index into the currently displayed page: with
two predictions, offset 1 and limit 1, the single displayed row carries
line 1 (rendered to the human as 2), not 0. -/
theorem claim_C10_counterexample :
    ¬ (∀ (preds : List Record) (q : Option String) (off lim i : ℕ)
        (row : ℕ × Record),
        (queryView preds q off lim).get? i = some row → row.1 = i) := by
  intro h
  have hc := h [samplePrediction, sampleBroaderPrediction] none 1 1 0
    (1, sampleBroaderPrediction) (by decide)
  exact absurd hc (by decide)

/-- Claim C10 (amended): the review interface's decision encoding is
exactly the five request values yup, broad, narrow, nope and idk (denoting
confirm-correct, mark-broader, mark-narrower, confirm-incorrect and
mark-unsure), and each decision link addresses its prediction by the
zero-based row position `line` of the record in the full stably-ordered
Predicted collection (so the address stays valid across pages), which the
interface renders to the human as `1 + line`. -/
theorem claim_C10_decision_encoding (preds : List Record) (q : Option String)
    (off lim i : ℕ) (p : Record)
    (h : (i, p) ∈ queryView preds q off lim) :
    preds.get? i = some p ∧
    renderRow i =
      (1 + i, [⟨"yup", i⟩, ⟨"broad", i⟩, ⟨"narrow", i⟩, ⟨"nope", i⟩,
        ⟨"idk", i⟩]) ∧
    markLinkValues.map decisionOfValue =
      [some Decision.confirmCorrect, some Decision.markBroader,
       some Decision.markNarrower, some Decision.confirmIncorrect,
       some Decision.markUnsure] ∧
    markLinkValues.Nodup :=
  ⟨queryView_mem h, rfl, by decide, by decide⟩

/-- Witness for claim C10: the second prediction, displayed with offset 1
and limit 1, is addressed by line 1 — its position in the full Predicted
store — and rendered with the five decision values and visible number
2. -/
theorem claim_C10_witness :
    [samplePrediction, sampleBroaderPrediction].get? 1 =
      some sampleBroaderPrediction ∧
    renderRow 1 =
      (1 + 1, [⟨"yup", 1⟩, ⟨"broad", 1⟩, ⟨"narrow", 1⟩, ⟨"nope", 1⟩,
        ⟨"idk", 1⟩]) ∧
    markLinkValues.map decisionOfValue =
      [some Decision.confirmCorrect, some Decision.markBroader,
       some Decision.markNarrower, some Decision.confirmIncorrect,
       some Decision.markUnsure] ∧
    markLinkValues.Nodup :=
  claim_C10_decision_encoding [samplePrediction, sampleBroaderPrediction]
    none 1 1 1 sampleBroaderPrediction (by decide)

end Biomappings

